import Mathlib

/-!
A shallow embedding of `fast_sql.go` (package `fastsql`), the batch-insert
accelerator over `database/sql`.

Modelling conventions:
* Go strings are modelled as `List Char` (`Str`).  Every string the library
  manipulates in the claims is ASCII, where Go's byte indices coincide with
  character indices.
* Go's `s[a:b]` slicing panics unless `0 ≤ a ≤ b ≤ len s`; it is modelled by
  `goSlice`, which returns `none` exactly when Go would panic.  Operations
  that can panic therefore return `Option`.
* `regexp.MustCompile("(?i)values").FindStringIndex` is the leftmost
  occurrence of the literal `values` under ASCII case folding; it is modelled
  by `firstMatch` over the case-lowered string (lowering preserves indices).
  `dupeRegexp.FindAllStringIndex(q, -1)` returns the non-overlapping matches
  left to right and the code takes the start of the last one; since
  `on duplicate key update` has no proper prefix equal to one of its
  suffixes, its occurrences in any string are pairwise disjoint, so the last
  non-overlapping match is simply the rightmost occurrence, modelled by
  `lastMatch`.
* The external `database/sql` calls `Prepare` and `Exec` are modelled by an
  `Oracle` deciding their success per query text (and parameter list), and
  every operation additionally returns the list of external calls it made
  (`Event`), so that "performs no prepare/exec" is expressible.
* Go's `map[string]*insert` is modelled as an association list in insertion
  order; claims about `FlushAll` quantify over arbitrary registry contents,
  so they hold for any iteration order.
* `uint` counters become `Nat`; bound parameters (`interface{}` values)
  become an abstract scalar type `Param := Int`.
-/

namespace FastSql

abbrev Str := List Char

abbrev Param := Int

/-- ASCII case folding, as used by the `(?i)` flag on the two regexps for
the ASCII-only patterns `values` and `on duplicate key update`. -/
def asciiLower (c : Char) : Char :=
  if 65 ≤ c.toNat ∧ c.toNat ≤ 90 then Char.ofNat (c.toNat + 32) else c

def lowerStr (s : Str) : Str := s.map asciiLower

/-- Go `unicode.IsSpace` restricted to ASCII (all whitespace appearing in the
claims' templates is ASCII). -/
def goIsSpace (c : Char) : Bool :=
  c == ' ' || c == '\t' || c == '\n' || c == (Char.ofNat 11) || c == (Char.ofNat 12) || c == '\r'

/-- Go `strings.TrimSpace`. -/
def trimSpace (s : Str) : Str :=
  ((s.dropWhile goIsSpace).reverse.dropWhile goIsSpace).reverse

/-- All indices at which `pat` occurs in `s` (as a contiguous sublist). -/
def matchIdxs (pat s : Str) : List Nat :=
  (List.range (s.length + 1)).filter fun i => pat.isPrefixOf (s.drop i)

/-- Leftmost occurrence: `regexp.FindStringIndex`'s start, for a literal
pattern. -/
def firstMatch (pat s : Str) : Option Nat := (matchIdxs pat s).head?

/-- Rightmost occurrence: start of the last element of
`regexp.FindAllStringIndex(s, -1)` for a literal pattern with no
self-overlap, and also Go `strings.LastIndex` for a literal. -/
def lastMatch (pat s : Str) : Option Nat := (matchIdxs pat s).getLast?

/-- Go index convention: `-1` for "not found". -/
def goIdx : Option Nat → Int
  | none => -1
  | some i => (i : Int)

/-- Go slicing `s[a:b]`: defined iff `0 ≤ a ≤ b ≤ len s`, else a panic
(`none`). -/
def goSlice (s : Str) (a b : Int) : Option Str :=
  if 0 ≤ a ∧ a ≤ b ∧ b ≤ (s.length : Int) then
    some ((s.take b.toNat).drop a.toNat)
  else
    none

def valuesPat : Str := "values".toList

def dupePat : Str := "on duplicate key update".toList

/-- The `insert` struct of `fast_sql.go`. -/
structure Insert where
  bindParams : List Param
  insertCtr : Nat
  queryPart1 : Str
  queryPart2 : Str
  queryPart3 : Str
  values : Str
  deriving DecidableEq, Repr

/-- Go `newInsert()`. -/
def newInsert : Insert :=
  { bindParams := []
    insertCtr := 0
    queryPart1 := []
    queryPart2 := []
    queryPart3 := []
    values := " VALUES".toList }

/-- Model of `(*insert).splitQuery`.  Returns `none` when the Go code would
panic on an out-of-range slice. -/
def splitQuery (query : Str) (ins : Insert) : Option Insert :=
  let ndxParens : Int := goIdx (lastMatch [')'] query)
  let ndxValues : Int := goIdx (firstMatch valuesPat (lowerStr query))
  let ndxOnDupe : Int := goIdx (lastMatch dupePat (lowerStr query))
  match goSlice query 0 ndxValues with
  | none => none
  | some beforeValues =>
    let ins1 := { ins with queryPart1 := trimSpace beforeValues }
    if ndxOnDupe ≠ -1 then
      match goSlice query (ndxValues + 6) (ndxOnDupe - 1),
            goSlice query ndxOnDupe (query.length : Int) with
      | some mid, some rest =>
        some { ins1 with queryPart2 := mid ++ [','], queryPart3 := rest }
      | _, _ => none
    else
      match goSlice query (ndxValues + 6) (ndxParens + 1) with
      | some mid => some { ins1 with queryPart2 := mid ++ [','] }
      | none => none

/-- External calls made against the underlying `sql.DB`. -/
inductive Event where
  | splitCall (q : Str)
  | prepare (q : Str)
  | exec (q : Str) (ps : List Param)
  deriving DecidableEq, Repr

/-- Errors surfaced by the underlying connection. -/
inductive Err where
  | prepErr (q : Str)
  | execErr (q : Str)
  deriving DecidableEq, Repr

/-- Success/failure behaviour of the underlying connection's `Prepare` and
`Exec`. -/
structure Oracle where
  prepareOk : Str → Bool
  execOk : Str → List Param → Bool

/-- Membership of a query text in the `prepstmts` cache (only the keys
matter for the claims; the `*sql.Stmt` handles are opaque). -/
def hasQuery : List Str → Str → Bool
  | [], _ => false
  | q :: rest, s => if q = s then true else hasQuery rest s

def lookupIns : List (Str × Insert) → Str → Option Insert
  | [], _ => none
  | (k, v) :: rest, q => if k = q then some v else lookupIns rest q

/-- Go map update through the `*insert` pointer: replace the value stored
under key `k`. -/
def setEntry (l : List (Str × Insert)) (k : Str) (v : Insert) : List (Str × Insert) :=
  l.map fun p => if p.1 = k then (k, v) else p

/-- The parts of `fastsql.DB` the batching claims touch. -/
structure DBState where
  prepstmts : List Str
  flushInterval : Nat
  batchInserts : List (Str × Insert)
  deriving DecidableEq, Repr

/-- The batching-relevant fields of the `DB` built by `Open`. -/
def openDB (flushInterval : Nat) : DBState :=
  { prepstmts := [], flushInterval := flushInterval, batchInserts := [] }

/-- Model of `(*DB).flushInsert`.  `none` models the panic of
`in.values[:len-1]` on an empty `values` (unreachable from the public
operations).  Otherwise
returns the updated statement cache, the updated `insert`, the external
calls made, and the result. -/
def flushInsert (orc : Oracle) (prep : List Str) (ins : Insert) :
    Option (List Str × Insert × List Event × Except Err Unit) :=
  match goSlice ins.values 0 ((ins.values.length : Int) - 1) with
  | none => none
  | some chopped =>
    let query := ins.queryPart1 ++ chopped ++ ins.queryPart3
    if hasQuery prep query then
      if orc.execOk query ins.bindParams then
        some (prep,
          { ins with values := " VALUES".toList, bindParams := [], insertCtr := 0 },
          [Event.exec query ins.bindParams], Except.ok ())
      else
        some (prep, ins, [Event.exec query ins.bindParams],
          Except.error (Err.execErr query))
    else if orc.prepareOk query then
      if orc.execOk query ins.bindParams then
        some (prep ++ [query],
          { ins with values := " VALUES".toList, bindParams := [], insertCtr := 0 },
          [Event.prepare query, Event.exec query ins.bindParams], Except.ok ())
      else
        some (prep ++ [query], ins,
          [Event.prepare query, Event.exec query ins.bindParams],
          Except.error (Err.execErr query))
    else
      some (prep, ins, [Event.prepare query], Except.error (Err.prepErr query))

/-- Lines 100-104 of the source: increment `insertCtr`, extend the VALUES
section by one row fragment, append the call's parameters. -/
def appendRow (ins : Insert) (params : List Param) : Insert :=
  { ins with
      insertCtr := ins.insertCtr + 1
      values := ins.values ++ ins.queryPart2
      bindParams := ins.bindParams ++ params }

/-- The tail of `BatchInsert` after the row is appended: the threshold
check and (possibly) the flush, writing the updated `insert` back into the
registry `bis`. -/
def insertCont (orc : Oracle) (d : DBState) (query : Str) (params : List Param)
    (bis : List (Str × Insert)) (ins1 : Insert) (evs0 : List Event) :
    Option (DBState × List Event × Except Err Unit) :=
  let ins2 := appendRow ins1 params
  if d.flushInterval ≤ ins2.insertCtr then
    match flushInsert orc d.prepstmts ins2 with
    | none => none
    | some (prep', ins3, evs1, res) =>
      some ({ d with prepstmts := prep', batchInserts := setEntry bis query ins3 },
        evs0 ++ evs1, res)
  else
    some ({ d with batchInserts := setEntry bis query ins2 }, evs0, Except.ok ())

/-- Model of `(*DB).BatchInsert`.  `none` models a panic inside `splitQuery`
or `flushInsert`. -/
def BatchInsert (orc : Oracle) (d : DBState) (query : Str) (params : List Param) :
    Option (DBState × List Event × Except Err Unit) :=
  let bis :=
    match lookupIns d.batchInserts query with
    | some _ => d.batchInserts
    | none => d.batchInserts ++ [(query, newInsert)]
  match lookupIns bis query with
  | none => none
  | some ins0 =>
    if ins0.queryPart1 = [] then
      match splitQuery query ins0 with
      | none => none
      | some ins1 => insertCont orc d query params bis ins1 [Event.splitCall query]
    else
      insertCont orc d query params bis ins0 []

/-- The loop body of `(*DB).FlushAll` over the registry entries: threads the
statement cache, rebuilds the registry (cleared to `[]` on the first
failure, as `d.batchInserts = map[string]*insert{}` does), accumulates
events, and stops at the first error. -/
def flushAllAux (orc : Oracle) (prep : List Str) :
    List (Str × Insert) → Option (List Str × List (Str × Insert) × List Event × Except Err Unit)
  | [] => some (prep, [], [], Except.ok ())
  | (k, ins) :: rest =>
    match flushInsert orc prep ins with
    | none => none
    | some (prep', _, evs, Except.error e) => some (prep', [], evs, Except.error e)
    | some (prep', ins', evs, Except.ok ()) =>
      match flushAllAux orc prep' rest with
      | none => none
      | some (prep'', _, evs', Except.error e) =>
        some (prep'', [], evs ++ evs', Except.error e)
      | some (prep'', rest', evs', Except.ok ()) =>
        some (prep'', (k, ins') :: rest', evs ++ evs', Except.ok ())

/-- Model of `(*DB).FlushAll`. -/
def FlushAll (orc : Oracle) (d : DBState) :
    Option (DBState × List Event × Except Err Unit) :=
  match flushAllAux orc d.prepstmts d.batchInserts with
  | none => none
  | some (prep', bis', evs, res) =>
    some ({ d with prepstmts := prep', batchInserts := bis' }, evs, res)

/-! ## The `Open` / `setDB` layer

`sql.Open` and `(*sql.DB).Ping` are external: a `GoWorld` records whether
`sql.Open` fails for given arguments and whether pinging the resulting
handle (reachability) fails. -/

abbrev GoErr := String

structure GoWorld where
  sqlOpenErr : String → String → Option GoErr
  pingErr : Option GoErr

/-- The fields of `fastsql.DB` built by `Open` (handles are opaque, so the
two statement maps are modelled by their key sets). -/
structure FastDB where
  preparedStatements : List Str
  prepstmts : List Str
  driverName : String
  flushInterval : Nat
  batchInserts : List (Str × Insert)
  deriving DecidableEq, Repr

/-- Model of `fastsql.Open`: calls `sql.Open` and, on success, returns the
struct literal of lines 79-86 of the source.  Note it never consults
`pingErr`. -/
def Open (w : GoWorld) (driverName dataSourceName : String) (flushInterval : Nat) :
    Except GoErr FastDB :=
  match w.sqlOpenErr driverName dataSourceName with
  | some e => Except.error e
  | none =>
    Except.ok
      { preparedStatements := []
        prepstmts := []
        driverName := driverName
        flushInterval := flushInterval
        batchInserts := [] }

/-- Model of the unexported `(*DB).setDB`: pings the handle and installs it
only if the ping succeeds. -/
def setDB (w : GoWorld) (d : FastDB) : Except GoErr FastDB :=
  match w.pingErr with
  | some e => Except.error e
  | none => Except.ok d

/-! ## Observers and concrete inputs used by the claims -/

def stateOf (r : Option (DBState × List Event × Except Err Unit)) : DBState :=
  match r with
  | some (d, _, _) => d
  | none => openDB 0

def evsOf (r : Option (DBState × List Event × Except Err Unit)) : List Event :=
  match r with
  | some (_, evs, _) => evs
  | none => []

def resOf (r : Option (DBState × List Event × Except Err Unit)) : Except Err Unit :=
  match r with
  | some (_, _, res) => res
  | none => Except.ok ()

/-- The oracle on which every external Prepare/Exec succeeds. -/
def orcAll : Oracle := { prepareOk := fun _ => true, execOk := fun _ _ => true }

/-- The oracle on which Prepare always fails. -/
def orcNoPrep : Oracle := { prepareOk := fun _ => false, execOk := fun _ _ => false }

/-- The oracle on which Prepare succeeds and Exec always fails. -/
def orcNoExec : Oracle := { prepareOk := fun _ => true, execOk := fun _ _ => false }

def tmplAB : Str := "INSERT INTO t (a,b) VALUES (?,?)".toList

def tmplDupe : Str := "INSERT INTO t (a) VALUES (?) ON DUPLICATE KEY UPDATE a=?".toList

/-- SQL text actually materialized by flushing three accumulated rows of
`tmplAB`. -/
def sqlAB3 : Str := "INSERT INTO t (a,b) VALUES (?,?), (?,?), (?,?)".toList

/-- SQL text the spec claims for that flush. -/
def sqlAB3Claimed : Str := "INSERT INTO t (a,b) VALUES (?,?),(?,?),(?,?)".toList

/-- SQL text actually materialized by flushing two accumulated rows of
`tmplDupe`. -/
def sqlDupe2 : Str := "INSERT INTO t (a) VALUES (?), (?)ON DUPLICATE KEY UPDATE a=?".toList

/-- SQL text the spec claims for that flush. -/
def sqlDupe2Claimed : Str := "INSERT INTO t (a) VALUES (?),(?) ON DUPLICATE KEY UPDATE a=?".toList

/-- SQL text of a one-row flush of `tmplAB`. -/
def sqlAB1 : Str := "INSERT INTO t (a,b) VALUES (?,?)".toList

/-- The malformed SQL text `flushInsert` materializes from an idle
(`insertCtr = 0`) batch state of `tmplAB`: the bare `" VALUES"` sentinel
loses its final character. -/
def sqlABTrunc : Str := "INSERT INTO t (a,b) VALUE".toList

def c2run1 : Option (DBState × List Event × Except Err Unit) :=
  BatchInsert orcAll (openDB 3) tmplAB [1, 2]

def c2run2 : Option (DBState × List Event × Except Err Unit) :=
  BatchInsert orcAll (stateOf c2run1) tmplAB [3, 4]

def c2run3 : Option (DBState × List Event × Except Err Unit) :=
  BatchInsert orcAll (stateOf c2run2) tmplAB [5, 6]

def c3run1 (x y : Param) : Option (DBState × List Event × Except Err Unit) :=
  BatchInsert orcAll (openDB 2) tmplDupe [x, y]

def c3run2 (x y x2 y2 : Param) : Option (DBState × List Event × Except Err Unit) :=
  BatchInsert orcAll (stateOf (c3run1 x y)) tmplDupe [x2, y2]

/-- The `insert` state of `tmplAB` holding one accumulated row `[1, 2]`. -/
def insAB1 : Insert :=
  { bindParams := [1, 2]
    insertCtr := 1
    queryPart1 := "INSERT INTO t (a,b)".toList
    queryPart2 := " (?,?),".toList
    queryPart3 := []
    values := " VALUES (?,?),".toList }

/-- A registry state with one pending single-row batch of `tmplAB`. -/
def dbPend : DBState :=
  { prepstmts := [], flushInterval := 3, batchInserts := [(tmplAB, insAB1)] }

def tmplCD : Str := "INSERT INTO u (c) VALUES (?)".toList

def tmplEF : Str := "INSERT INTO v (e) VALUES (?)".toList

/-- SQL text of a one-row flush of `tmplCD`. -/
def sqlCD1 : Str := "INSERT INTO u (c) VALUES (?)".toList

/-- The `insert` state of `tmplCD` holding one accumulated row `[7]`. -/
def insCD1 : Insert :=
  { bindParams := [7]
    insertCtr := 1
    queryPart1 := "INSERT INTO u (c)".toList
    queryPart2 := " (?),".toList
    queryPart3 := []
    values := " VALUES (?),".toList }

/-- The `insert` state of `tmplEF` holding one accumulated row `[9]`. -/
def insEF1 : Insert :=
  { bindParams := [9]
    insertCtr := 1
    queryPart1 := "INSERT INTO v (e)".toList
    queryPart2 := " (?),".toList
    queryPart3 := []
    values := " VALUES (?),".toList }

/-- An oracle on which Prepare fails exactly for `sqlCD1` (template B's
materialized SQL) and everything else succeeds. -/
def orcBFail : Oracle :=
  { prepareOk := fun q => if q = sqlCD1 then false else true
    execOk := fun _ _ => true }

/-- A registry with three pending single-row batches: template A
(`tmplAB`), then template B (`tmplCD`), then template C (`tmplEF`). -/
def dbPend3 : DBState :=
  { prepstmts := []
    flushInterval := 3
    batchInserts := [(tmplAB, insAB1), (tmplCD, insCD1), (tmplEF, insEF1)] }

/-- Threshold 1: the first `BatchInsert` flushes immediately, leaving an
idle (`insertCtr = 0`) batch state registered. -/
def c1run1 : Option (DBState × List Event × Except Err Unit) :=
  BatchInsert orcAll (openDB 1) tmplAB [1, 2]

def c1flushAll : Option (DBState × List Event × Except Err Unit) :=
  FlushAll orcAll (stateOf c1run1)

/-- A world whose `sql.Open` succeeds but whose connection is unreachable
(pinging it would fail). -/
def wUnreachable : GoWorld :=
  { sqlOpenErr := fun _ _ => none, pingErr := some "connection refused" }

/-! ## Derived forms and invariants -/

/-- The split triple (`SplitForm`) stored in a batch state. -/
def splitForm (ins : Insert) : Str × Str × Str :=
  (ins.queryPart1, ins.queryPart2, ins.queryPart3)

/-- The events of an operation that record a `splitQuery` invocation. -/
def splitEvs (evs : List Event) : List Event :=
  evs.filter fun e =>
    match e with
    | Event.splitCall _ => true
    | _ => false

/-- The SQL text `flushInsert` materializes (for a non-empty `values`). -/
def builtQuery (ins : Insert) : Str :=
  ins.queryPart1 ++ ins.values.dropLast ++ ins.queryPart3

/-- The claimed idle-state invariant: a batch entry with `insertCtr = 0`
has the bare `" VALUES"` sentinel (empty accumulated text) and no
accumulated parameters. -/
def idleEntry (p : Str × Insert) : Prop :=
  p.2.insertCtr = 0 → p.2.values = " VALUES".toList ∧ p.2.bindParams = []

def InvIdle (d : DBState) : Prop :=
  ∀ p ∈ d.batchInserts, idleEntry p

/-- One public operation of the library (with the single-template flush as
invoked on a registered batch state, writing back through the `*insert`
pointer). -/
inductive Step : DBState → DBState → Prop where
  | batchInsert (orc : Oracle) (q : Str) (ps : List Param) (d d' : DBState)
      (evs : List Event) (res : Except Err Unit) :
      BatchInsert orc d q ps = some (d', evs, res) → Step d d'
  | flushOne (orc : Oracle) (q : Str) (ins : Insert) (d : DBState)
      (prep' : List Str) (ins' : Insert) (evs : List Event) (res : Except Err Unit) :
      lookupIns d.batchInserts q = some ins →
      flushInsert orc d.prepstmts ins = some (prep', ins', evs, res) →
      Step d { d with prepstmts := prep', batchInserts := setEntry d.batchInserts q ins' }
  | flushAll (orc : Oracle) (d d' : DBState) (evs : List Event) (res : Except Err Unit) :
      FlushAll orc d = some (d', evs, res) → Step d d'

/-- The reset state written by a successful flush (lines 150-153 of the
source). -/
def flushedIns (ins : Insert) : Insert :=
  { ins with values := " VALUES".toList, bindParams := [], insertCtr := 0 }

/-- The split form `splitQuery` computes for `tmplAB` on a fresh state. -/
def insSplitAB : Insert :=
  { bindParams := []
    insertCtr := 0
    queryPart1 := "INSERT INTO t (a,b)".toList
    queryPart2 := " (?,?),".toList
    queryPart3 := []
    values := " VALUES".toList }

/-- The precondition under which `splitQuery` does not panic (claim C9):
the template contains `values` case-insensitively; the (last) conflict
clause occurrence, if any, begins strictly after the end of that first
`values` occurrence; and with no conflict clause, the last `)` sits at or
after the end of the `values` keyword. -/
def splitPre (q : Str) : Bool :=
  match firstMatch valuesPat (lowerStr q) with
  | none => false
  | some v =>
    match lastMatch dupePat (lowerStr q) with
    | some j => decide (v + 6 < j)
    | none =>
      match lastMatch [')'] q with
      | none => false
      | some p => decide (v + 6 ≤ p)

/-! ## Helper lemmas -/

theorem hasQuery_iff_mem (l : List Str) (s : Str) : hasQuery l s = true ↔ s ∈ l := by
  induction l with
  | nil => simp [hasQuery]
  | cons q rest ih =>
    by_cases hqs : q = s
    · subst hqs
      simp [hasQuery]
    · simp only [hasQuery, if_neg hqs, ih, List.mem_cons]
      constructor
      · exact Or.inr
      · rintro (h | h)
        · exact absurd h.symm hqs
        · exact h

theorem lookupIns_setEntry_self (l : List (Str × Insert)) (k : Str) (v x : Insert)
    (h : lookupIns l k = some x) : lookupIns (setEntry l k v) k = some v := by
  induction l with
  | nil => simp [lookupIns] at h
  | cons p rest ih =>
    simp only [setEntry, List.map_cons]
    by_cases hp : p.1 = k
    · rw [if_pos hp]
      simp [lookupIns]
    · rw [if_neg hp]
      simp only [lookupIns, if_neg hp] at h
      simp only [lookupIns, if_neg hp]
      exact ih h

theorem mem_setEntry (l : List (Str × Insert)) (k : Str) (v : Insert) (p : Str × Insert)
    (h : p ∈ setEntry l k v) : p ∈ l ∨ p = (k, v) := by
  induction l with
  | nil => simp [setEntry] at h
  | cons q rest ih =>
    simp only [setEntry, List.map_cons, List.mem_cons] at h
    rcases h with h | h
    · by_cases hq : q.1 = k
      · rw [if_pos hq] at h
        exact Or.inr h
      · rw [if_neg hq] at h
        exact Or.inl (h ▸ List.mem_cons_self q rest)
    · rcases ih h with h' | h'
      · exact Or.inl (List.mem_cons_of_mem q h')
      · exact Or.inr h'

theorem lookupIns_append_new (l : List (Str × Insert)) (k : Str) (v : Insert)
    (h : lookupIns l k = none) : lookupIns (l ++ [(k, v)]) k = some v := by
  induction l with
  | nil => simp [lookupIns]
  | cons p rest ih =>
    by_cases hp : p.1 = k
    · simp [lookupIns, hp] at h
    · simp only [lookupIns, if_neg hp] at h
      simpa only [List.cons_append, lookupIns, if_neg hp] using ih h

theorem goSlice_values (s : Str) :
    goSlice s 0 ((s.length : Int) - 1) =
      if s = [] then none else some s.dropLast := by
  by_cases hs : s = []
  · subst hs
    simp [goSlice]
  · have hlen : 1 ≤ s.length := List.length_pos.mpr hs
    rw [if_neg hs]
    unfold goSlice
    rw [if_pos (by constructor; omega; constructor <;> omega)]
    have h1 : ((s.length : Int) - 1).toNat = s.length - 1 := by omega
    simp only [Int.toNat_zero, List.drop_zero, h1, List.dropLast_eq_take]

theorem flushInsert_eq (orc : Oracle) (prep : List Str) (ins : Insert) (h : ins.values ≠ []) :
    flushInsert orc prep ins =
      (if hasQuery prep (builtQuery ins) then
        if orc.execOk (builtQuery ins) ins.bindParams then
          some (prep, flushedIns ins, [Event.exec (builtQuery ins) ins.bindParams],
            Except.ok ())
        else
          some (prep, ins, [Event.exec (builtQuery ins) ins.bindParams],
            Except.error (Err.execErr (builtQuery ins)))
      else if orc.prepareOk (builtQuery ins) then
        if orc.execOk (builtQuery ins) ins.bindParams then
          some (prep ++ [builtQuery ins], flushedIns ins,
            [Event.prepare (builtQuery ins), Event.exec (builtQuery ins) ins.bindParams],
            Except.ok ())
        else
          some (prep ++ [builtQuery ins], ins,
            [Event.prepare (builtQuery ins), Event.exec (builtQuery ins) ins.bindParams],
            Except.error (Err.execErr (builtQuery ins)))
      else
        some (prep, ins, [Event.prepare (builtQuery ins)],
          Except.error (Err.prepErr (builtQuery ins)))) := by
  unfold flushInsert
  rw [goSlice_values, if_neg h]
  rfl

theorem flushInsert_values_ne (orc : Oracle) (prep : List Str) (ins : Insert)
    (x : List Str × Insert × List Event × Except Err Unit)
    (h : flushInsert orc prep ins = some x) : ins.values ≠ [] := by
  intro hv
  unfold flushInsert at h
  rw [goSlice_values, if_pos hv] at h
  exact Option.noConfusion h

theorem flushInsert_out (orc : Oracle) (prep prep' : List Str) (ins ins' : Insert)
    (evs : List Event) (res : Except Err Unit)
    (h : flushInsert orc prep ins = some (prep', ins', evs, res)) :
    (res = Except.ok () ∧ ins' = flushedIns ins) ∨
      (∃ e, res = Except.error e ∧ ins' = ins) := by
  have hv := flushInsert_values_ne orc prep ins _ h
  rw [flushInsert_eq orc prep ins hv] at h
  split_ifs at h <;>
    simp only [Option.some.injEq, Prod.mk.injEq] at h <;>
    obtain ⟨h1, h2, h3, h4⟩ := h
  · exact Or.inl ⟨h4.symm, h2.symm⟩
  · exact Or.inr ⟨_, h4.symm, h2.symm⟩
  · exact Or.inl ⟨h4.symm, h2.symm⟩
  · exact Or.inr ⟨_, h4.symm, h2.symm⟩
  · exact Or.inr ⟨_, h4.symm, h2.symm⟩

theorem flushInsert_error_frame (orc : Oracle) (prep prep' : List Str) (ins ins' : Insert)
    (evs : List Event) (e : Err)
    (h : flushInsert orc prep ins = some (prep', ins', evs, Except.error e)) :
    ins' = ins := by
  rcases flushInsert_out orc prep prep' ins ins' evs _ h with ⟨hok, _⟩ | ⟨e', _, hins⟩
  · exact absurd hok (by simp)
  · exact hins

theorem flushInsert_ok_reset (orc : Oracle) (prep prep' : List Str) (ins ins' : Insert)
    (evs : List Event)
    (h : flushInsert orc prep ins = some (prep', ins', evs, Except.ok ())) :
    ins' = flushedIns ins := by
  rcases flushInsert_out orc prep prep' ins ins' evs _ h with ⟨_, hins⟩ | ⟨e', herr, _⟩
  · exact hins
  · exact absurd herr (by simp)

theorem flushInsert_splitForm (orc : Oracle) (prep prep' : List Str) (ins ins' : Insert)
    (evs : List Event) (res : Except Err Unit)
    (h : flushInsert orc prep ins = some (prep', ins', evs, res)) :
    splitForm ins' = splitForm ins := by
  rcases flushInsert_out orc prep prep' ins ins' evs res h with ⟨_, hins⟩ | ⟨e, _, hins⟩
  · rw [hins]
    rfl
  · rw [hins]

theorem flushInsert_splitEvs (orc : Oracle) (prep prep' : List Str) (ins ins' : Insert)
    (evs : List Event) (res : Except Err Unit)
    (h : flushInsert orc prep ins = some (prep', ins', evs, res)) :
    splitEvs evs = [] := by
  have hv := flushInsert_values_ne orc prep ins _ h
  rw [flushInsert_eq orc prep ins hv] at h
  split_ifs at h <;>
    simp only [Option.some.injEq, Prod.mk.injEq] at h <;>
    obtain ⟨h1, h2, h3, h4⟩ := h <;>
    rw [← h3] <;> rfl

theorem flushInsert_prepstmts (orc : Oracle) (prep prep' : List Str) (ins ins' : Insert)
    (evs : List Event) (res : Except Err Unit)
    (h : flushInsert orc prep ins = some (prep', ins', evs, res)) (s : Str) :
    hasQuery prep' s = true ↔
      (hasQuery prep s = true ∨ (s = builtQuery ins ∧ orc.prepareOk s = true)) := by
  have hv := flushInsert_values_ne orc prep ins _ h
  rw [flushInsert_eq orc prep ins hv] at h
  split_ifs at h with h1 h2 h3 h4 <;>
    simp only [Option.some.injEq, Prod.mk.injEq] at h
  · rw [← h.1]
    constructor
    · exact Or.inl
    · rintro (hs | ⟨rfl, _⟩)
      · exact hs
      · exact h1
  · rw [← h.1]
    constructor
    · exact Or.inl
    · rintro (hs | ⟨rfl, _⟩)
      · exact hs
      · exact h1
  · rw [← h.1, hasQuery_iff_mem, List.mem_append, List.mem_singleton, hasQuery_iff_mem]
    constructor
    · rintro (hs | rfl)
      · exact Or.inl hs
      · exact Or.inr ⟨rfl, h3⟩
    · rintro (hs | ⟨rfl, _⟩)
      · exact Or.inl hs
      · exact Or.inr rfl
  · rw [← h.1, hasQuery_iff_mem, List.mem_append, List.mem_singleton, hasQuery_iff_mem]
    constructor
    · rintro (hs | rfl)
      · exact Or.inl hs
      · exact Or.inr ⟨rfl, h3⟩
    · rintro (hs | ⟨rfl, _⟩)
      · exact Or.inl hs
      · exact Or.inr rfl
  · rw [← h.1]
    constructor
    · exact Or.inl
    · rintro (hs | ⟨rfl, hok⟩)
      · exact hs
      · exact absurd hok (by simp [h3])

theorem flushInsert_prep_mono (orc : Oracle) (prep prep' : List Str) (ins ins' : Insert)
    (evs : List Event) (res : Except Err Unit)
    (h : flushInsert orc prep ins = some (prep', ins', evs, res)) (s : Str)
    (hs : hasQuery prep s = true) : hasQuery prep' s = true :=
  (flushInsert_prepstmts orc prep prep' ins ins' evs res h s).mpr (Or.inl hs)

theorem flushInsert_allOk (orc : Oracle) (prep : List Str) (ins : Insert)
    (hp : ∀ q, orc.prepareOk q = true) (he : ∀ q ps, orc.execOk q ps = true)
    (hv : ins.values ≠ []) :
    ∃ prep' evs, flushInsert orc prep ins = some (prep', flushedIns ins, evs, Except.ok ()) := by
  rw [flushInsert_eq orc prep ins hv]
  by_cases hq : hasQuery prep (builtQuery ins)
  · rw [if_pos hq, if_pos (he _ _)]
    exact ⟨_, _, rfl⟩
  · rw [if_neg hq, if_pos (hp _), if_pos (he _ _)]
    exact ⟨_, _, rfl⟩

theorem flushAllAux_cons_err (orc : Oracle) (prep : List Str) (k : Str) (ins : Insert)
    (rest : List (Str × Insert)) (p1 : List Str) (i1 : Insert) (evs1 : List Event) (e : Err)
    (hf : flushInsert orc prep ins = some (p1, i1, evs1, Except.error e)) :
    flushAllAux orc prep ((k, ins) :: rest) = some (p1, [], evs1, Except.error e) := by
  unfold flushAllAux
  rw [hf]

theorem flushAllAux_cons_ok (orc : Oracle) (prep : List Str) (k : Str) (ins : Insert)
    (rest : List (Str × Insert)) (p1 : List Str) (i1 : Insert) (evs1 : List Event)
    (hf : flushInsert orc prep ins = some (p1, i1, evs1, Except.ok ())) :
    flushAllAux orc prep ((k, ins) :: rest) =
      (match flushAllAux orc p1 rest with
      | none => none
      | some (p2, _, evs2, Except.error e) => some (p2, [], evs1 ++ evs2, Except.error e)
      | some (p2, rest', evs2, Except.ok ()) =>
        some (p2, (k, i1) :: rest', evs1 ++ evs2, Except.ok ())) := by
  simp only [flushAllAux]
  rw [hf]

theorem flushAllAux_error_clears (orc : Oracle) (l : List (Str × Insert)) :
    ∀ (prep p' : List Str) (b : List (Str × Insert)) (evs : List Event) (e : Err),
      flushAllAux orc prep l = some (p', b, evs, Except.error e) → b = [] := by
  induction l with
  | nil =>
    intro prep p' b evs e h
    simp [flushAllAux] at h
  | cons p rest ih =>
    intro prep p' b evs e h
    obtain ⟨k, ins⟩ := p
    cases hf : flushInsert orc prep ins with
    | none =>
      unfold flushAllAux at h
      rw [hf] at h
      exact Option.noConfusion h
    | some x =>
      obtain ⟨p1, i1, evs1, res1⟩ := x
      cases res1 with
      | error e1 =>
        rw [flushAllAux_cons_err orc prep k ins rest p1 i1 evs1 e1 hf] at h
        simp only [Option.some.injEq, Prod.mk.injEq] at h
        exact h.2.1.symm
      | ok u =>
        cases u
        rw [flushAllAux_cons_ok orc prep k ins rest p1 i1 evs1 hf] at h
        cases hrec : flushAllAux orc p1 rest with
        | none =>
          rw [hrec] at h
          exact Option.noConfusion h
        | some y =>
          obtain ⟨p2, b2, evs2, res2⟩ := y
          rw [hrec] at h
          cases res2 with
          | error e2 =>
            simp only [Option.some.injEq, Prod.mk.injEq] at h
            exact h.2.1.symm
          | ok u2 =>
            cases u2
            simp only [Option.some.injEq, Prod.mk.injEq] at h
            exact absurd h.2.2.2 (by simp)

theorem flushAllAux_allOk (orc : Oracle) (hp : ∀ q, orc.prepareOk q = true)
    (he : ∀ q ps, orc.execOk q ps = true) (l : List (Str × Insert)) :
    ∀ (prep : List Str), (∀ p ∈ l, p.2.values ≠ []) →
      ∃ p' b evs, flushAllAux orc prep l = some (p', b, evs, Except.ok ()) := by
  induction l with
  | nil =>
    intro prep _
    exact ⟨prep, [], [], rfl⟩
  | cons p rest ih =>
    intro prep hv
    obtain ⟨k, ins⟩ := p
    obtain ⟨p1, evs1, hf⟩ :=
      flushInsert_allOk orc prep ins hp he (hv (k, ins) (List.mem_cons_self _ _))
    obtain ⟨p2, b2, evs2, hrec⟩ :=
      ih p1 fun q hq => hv q (List.mem_cons_of_mem _ hq)
    refine ⟨p2, (k, flushedIns ins) :: b2, evs1 ++ evs2, ?_⟩
    rw [flushAllAux_cons_ok orc prep k ins rest p1 (flushedIns ins) evs1 hf, hrec]

/-- If the loop succeeds over a prefix of the registry and the next
entry's flush fails, the loop stops right there: it returns exactly that
flush's error, clears the rebuilt registry, and emits no events for any
later entry. -/
theorem flushAllAux_first_err (orc : Oracle) (pre : List (Str × Insert)) :
    ∀ (prep prep1 : List Str) (b1 : List (Str × Insert)) (evs1 : List Event)
      (k : Str) (ins : Insert) (post : List (Str × Insert)) (prep2 : List Str)
      (ins2 : Insert) (evs2 : List Event) (e : Err),
      flushAllAux orc prep pre = some (prep1, b1, evs1, Except.ok ()) →
      flushInsert orc prep1 ins = some (prep2, ins2, evs2, Except.error e) →
      flushAllAux orc prep (pre ++ (k, ins) :: post) =
        some (prep2, [], evs1 ++ evs2, Except.error e) := by
  induction pre with
  | nil =>
    intro prep prep1 b1 evs1 k ins post prep2 ins2 evs2 e h1 h2
    simp only [flushAllAux, Option.some.injEq, Prod.mk.injEq, and_true] at h1
    obtain ⟨ha, _, hc⟩ := h1
    rw [← ha] at h2
    rw [List.nil_append, ← hc, List.nil_append]
    exact flushAllAux_cons_err orc prep k ins post prep2 ins2 evs2 e h2
  | cons p pre' ih =>
    intro prep prep1 b1 evs1 k ins post prep2 ins2 evs2 e h1 h2
    obtain ⟨k0, i0⟩ := p
    cases hf0 : flushInsert orc prep i0 with
    | none =>
      unfold flushAllAux at h1
      rw [hf0] at h1
      exact Option.noConfusion h1
    | some x =>
      obtain ⟨pA, iA, evsA, resA⟩ := x
      cases resA with
      | error eA =>
        rw [flushAllAux_cons_err orc prep k0 i0 pre' pA iA evsA eA hf0] at h1
        simp only [Option.some.injEq, Prod.mk.injEq] at h1
        exact absurd h1.2.2.2 (by simp)
      | ok u =>
        cases u
        rw [flushAllAux_cons_ok orc prep k0 i0 pre' pA iA evsA hf0] at h1
        cases hrec : flushAllAux orc pA pre' with
        | none =>
          rw [hrec] at h1
          exact Option.noConfusion h1
        | some y =>
          obtain ⟨pB, bB, evsB, resB⟩ := y
          rw [hrec] at h1
          cases resB with
          | error eB =>
            simp only [Option.some.injEq, Prod.mk.injEq] at h1
            exact absurd h1.2.2.2 (by simp)
          | ok u2 =>
            cases u2
            simp only [Option.some.injEq, Prod.mk.injEq, and_true] at h1
            obtain ⟨ha, _, hc⟩ := h1
            have h2' : flushInsert orc pB ins = some (prep2, ins2, evs2, Except.error e) := by
              rw [ha]
              exact h2
            have hih := ih pA pB bB evsB k ins post prep2 ins2 evs2 e hrec h2'
            rw [List.cons_append,
              flushAllAux_cons_ok orc prep k0 i0 (pre' ++ (k, ins) :: post) pA iA evsA hf0,
              hih, ← hc, List.append_assoc]

/-- Entries surviving in the registry rebuilt by `flushAllAux` are flush
results of input entries (or the registry was cleared). -/
theorem flushAllAux_out_entries (orc : Oracle) (l : List (Str × Insert)) :
    ∀ (prep p' : List Str) (b : List (Str × Insert)) (evs : List Event)
      (res : Except Err Unit),
      flushAllAux orc prep l = some (p', b, evs, res) →
      ∀ q ∈ b, ∃ p ∈ l, ∃ pr pr' evs',
        flushInsert orc pr p.2 = some (pr', q.2, evs', Except.ok ()) ∧ q.1 = p.1 := by
  induction l with
  | nil =>
    intro prep p' b evs res h q hq
    simp only [flushAllAux, Option.some.injEq, Prod.mk.injEq] at h
    rw [← h.2.1] at hq
    exact absurd hq (List.not_mem_nil q)
  | cons p rest ih =>
    intro prep p' b evs res h q hq
    obtain ⟨k, ins⟩ := p
    cases hf : flushInsert orc prep ins with
    | none =>
      unfold flushAllAux at h
      rw [hf] at h
      exact Option.noConfusion h
    | some x =>
      obtain ⟨p1, i1, evs1, res1⟩ := x
      cases res1 with
      | error e1 =>
        rw [flushAllAux_cons_err orc prep k ins rest p1 i1 evs1 e1 hf] at h
        simp only [Option.some.injEq, Prod.mk.injEq] at h
        rw [← h.2.1] at hq
        exact absurd hq (List.not_mem_nil q)
      | ok u =>
        cases u
        rw [flushAllAux_cons_ok orc prep k ins rest p1 i1 evs1 hf] at h
        cases hrec : flushAllAux orc p1 rest with
        | none =>
          rw [hrec] at h
          exact Option.noConfusion h
        | some y =>
          obtain ⟨p2, b2, evs2, res2⟩ := y
          rw [hrec] at h
          cases res2 with
          | error e2 =>
            simp only [Option.some.injEq, Prod.mk.injEq] at h
            rw [← h.2.1] at hq
            exact absurd hq (List.not_mem_nil q)
          | ok u2 =>
            cases u2
            simp only [Option.some.injEq, Prod.mk.injEq] at h
            rw [← h.2.1] at hq
            rcases List.mem_cons.mp hq with hq' | hq'
            · refine ⟨(k, ins), List.mem_cons_self _ _, prep, p1, evs1, ?_, ?_⟩
              · rw [hq']
                exact hf
              · rw [hq']
            · obtain ⟨pp, hpp, pr, pr', evs', hflush, hkey⟩ :=
                ih p1 p2 b2 evs2 (Except.ok ()) hrec q hq'
              exact ⟨pp, List.mem_cons_of_mem _ hpp, pr, pr', evs', hflush, hkey⟩

theorem FlushAll_of_aux (orc : Oracle) (d : DBState) (p' : List Str)
    (b : List (Str × Insert)) (evs : List Event) (res : Except Err Unit)
    (h : flushAllAux orc d.prepstmts d.batchInserts = some (p', b, evs, res)) :
    FlushAll orc d = some ({ d with prepstmts := p', batchInserts := b }, evs, res) := by
  unfold FlushAll
  rw [h]

theorem FlushAll_inv (orc : Oracle) (d d' : DBState) (evs : List Event)
    (res : Except Err Unit) (h : FlushAll orc d = some (d', evs, res)) :
    ∃ p' b, flushAllAux orc d.prepstmts d.batchInserts = some (p', b, evs, res) ∧
      d' = { d with prepstmts := p', batchInserts := b } := by
  unfold FlushAll at h
  cases haux : flushAllAux orc d.prepstmts d.batchInserts with
  | none =>
    rw [haux] at h
    exact Option.noConfusion h
  | some x =>
    obtain ⟨p1, b1, evs1, res1⟩ := x
    rw [haux] at h
    simp only [Option.some.injEq, Prod.mk.injEq] at h
    exact ⟨p1, b1, by rw [h.2.1, h.2.2], by rw [← h.1]⟩

theorem BatchInsert_found (orc : Oracle) (d : DBState) (q : Str) (ps : List Param)
    (ins0 : Insert) (hl : lookupIns d.batchInserts q = some ins0)
    (hq1 : ins0.queryPart1 ≠ []) :
    BatchInsert orc d q ps = insertCont orc d q ps d.batchInserts ins0 [] := by
  simp only [BatchInsert, hl, if_neg hq1]

theorem BatchInsert_found_split (orc : Oracle) (d : DBState) (q : Str) (ps : List Param)
    (ins0 ins1 : Insert) (hl : lookupIns d.batchInserts q = some ins0)
    (hq1 : ins0.queryPart1 = []) (hs : splitQuery q ins0 = some ins1) :
    BatchInsert orc d q ps =
      insertCont orc d q ps d.batchInserts ins1 [Event.splitCall q] := by
  simp only [BatchInsert, hl, if_pos hq1, hs]

theorem BatchInsert_new (orc : Oracle) (d : DBState) (q : Str) (ps : List Param)
    (ins1 : Insert) (hl : lookupIns d.batchInserts q = none)
    (hs : splitQuery q newInsert = some ins1) :
    BatchInsert orc d q ps =
      insertCont orc d q ps (d.batchInserts ++ [(q, newInsert)]) ins1
        [Event.splitCall q] := by
  simp only [BatchInsert, hl, lookupIns_append_new d.batchInserts q newInsert hl]
  have hq1 : newInsert.queryPart1 = [] := rfl
  rw [if_pos hq1, hs]

/-- Structural inversion of a successful `insertCont`. -/
theorem insertCont_shape (orc : Oracle) (d : DBState) (q : Str) (ps : List Param)
    (bis : List (Str × Insert)) (ins1 : Insert) (evs0 : List Event)
    (d' : DBState) (evs : List Event) (res : Except Err Unit)
    (h : insertCont orc d q ps bis ins1 evs0 = some (d', evs, res)) :
    (d'.batchInserts = setEntry bis q (appendRow ins1 ps) ∧
      d'.prepstmts = d.prepstmts ∧ evs = evs0 ∧ res = Except.ok ()) ∨
    (∃ prep' ins3 evs1,
      flushInsert orc d.prepstmts (appendRow ins1 ps) = some (prep', ins3, evs1, res) ∧
      d'.batchInserts = setEntry bis q ins3 ∧ d'.prepstmts = prep' ∧ evs = evs0 ++ evs1) := by
  unfold insertCont at h
  by_cases hth : d.flushInterval ≤ (appendRow ins1 ps).insertCtr
  · rw [if_pos hth] at h
    cases hf : flushInsert orc d.prepstmts (appendRow ins1 ps) with
    | none =>
      rw [hf] at h
      exact Option.noConfusion h
    | some x =>
      obtain ⟨p', i3, e1, r1⟩ := x
      rw [hf] at h
      simp only [Option.some.injEq, Prod.mk.injEq] at h
      refine Or.inr ⟨p', i3, e1, ?_, ?_, ?_, ?_⟩
      · rw [← h.2.2]
      · rw [← h.1]
      · rw [← h.1]
      · rw [← h.2.1]
  · rw [if_neg hth] at h
    simp only [Option.some.injEq, Prod.mk.injEq] at h
    exact Or.inl ⟨by rw [← h.1], by rw [← h.1], h.2.1.symm, h.2.2.symm⟩

/-- Structural inversion of a successful `BatchInsert`: the registry the
call worked on, the batch state it appended to, and whether a flush ran. -/
theorem BatchInsert_shape (orc : Oracle) (d : DBState) (q : Str) (ps : List Param)
    (d' : DBState) (evs : List Event) (res : Except Err Unit)
    (h : BatchInsert orc d q ps = some (d', evs, res)) :
    ∃ (bis : List (Str × Insert)) (ins1 : Insert),
      (bis = d.batchInserts ∨ bis = d.batchInserts ++ [(q, newInsert)]) ∧
      ((d'.batchInserts = setEntry bis q (appendRow ins1 ps) ∧
        d'.prepstmts = d.prepstmts) ∨
       (∃ prep' ins3 evs1,
          flushInsert orc d.prepstmts (appendRow ins1 ps) = some (prep', ins3, evs1, res) ∧
          d'.batchInserts = setEntry bis q ins3 ∧ d'.prepstmts = prep')) := by
  cases hl : lookupIns d.batchInserts q with
  | some ins0 =>
    by_cases hq1 : ins0.queryPart1 = []
    · cases hs : splitQuery q ins0 with
      | none =>
        simp only [BatchInsert, hl, if_pos hq1, hs] at h
        exact Option.noConfusion h
      | some ins1 =>
        rw [BatchInsert_found_split orc d q ps ins0 ins1 hl hq1 hs] at h
        rcases insertCont_shape orc d q ps d.batchInserts ins1 _ d' evs res h with
          ⟨h1, h2, _, _⟩ | ⟨p', i3, e1, hf, h1, h2, _⟩
        · exact ⟨d.batchInserts, ins1, Or.inl rfl, Or.inl ⟨h1, h2⟩⟩
        · exact ⟨d.batchInserts, ins1, Or.inl rfl, Or.inr ⟨p', i3, e1, hf, h1, h2⟩⟩
    · rw [BatchInsert_found orc d q ps ins0 hl hq1] at h
      rcases insertCont_shape orc d q ps d.batchInserts ins0 _ d' evs res h with
        ⟨h1, h2, _, _⟩ | ⟨p', i3, e1, hf, h1, h2, _⟩
      · exact ⟨d.batchInserts, ins0, Or.inl rfl, Or.inl ⟨h1, h2⟩⟩
      · exact ⟨d.batchInserts, ins0, Or.inl rfl, Or.inr ⟨p', i3, e1, hf, h1, h2⟩⟩
  | none =>
    cases hs : splitQuery q newInsert with
    | none =>
      have hq1 : newInsert.queryPart1 = [] := rfl
      simp only [BatchInsert, hl, lookupIns_append_new d.batchInserts q newInsert hl,
        if_pos hq1, hs] at h
      exact Option.noConfusion h
    | some ins1 =>
      rw [BatchInsert_new orc d q ps ins1 hl hs] at h
      rcases insertCont_shape orc d q ps (d.batchInserts ++ [(q, newInsert)]) ins1 _
          d' evs res h with ⟨h1, h2, _, _⟩ | ⟨p', i3, e1, hf, h1, h2, _⟩
      · exact ⟨d.batchInserts ++ [(q, newInsert)], ins1, Or.inr rfl, Or.inl ⟨h1, h2⟩⟩
      · exact ⟨d.batchInserts ++ [(q, newInsert)], ins1, Or.inr rfl,
          Or.inr ⟨p', i3, e1, hf, h1, h2⟩⟩

theorem lookupIns_mem (l : List (Str × Insert)) (q : Str) (x : Insert)
    (h : lookupIns l q = some x) : (q, x) ∈ l := by
  induction l with
  | nil => simp [lookupIns] at h
  | cons p rest ih =>
    by_cases hp : p.1 = q
    · simp only [lookupIns, if_pos hp, Option.some.injEq] at h
      have hpq : p = (q, x) := by
        rw [Prod.ext_iff]
        exact ⟨hp, h⟩
      rw [← hpq]
      exact List.mem_cons_self p rest
    · simp only [lookupIns, if_neg hp] at h
      exact List.mem_cons_of_mem p (ih h)

theorem idleEntry_newInsert (q : Str) : idleEntry (q, newInsert) :=
  fun _ => ⟨rfl, rfl⟩

theorem idleEntry_flushed (k : Str) (ins : Insert) : idleEntry (k, flushedIns ins) :=
  fun _ => ⟨rfl, rfl⟩

theorem idleEntry_appendRow (q : Str) (ins : Insert) (ps : List Param) :
    idleEntry (q, appendRow ins ps) :=
  fun h => absurd h (Nat.succ_ne_zero ins.insertCtr)

theorem BatchInsert_invIdle (orc : Oracle) (d : DBState) (q : Str) (ps : List Param)
    (d' : DBState) (evs : List Event) (res : Except Err Unit) (hinv : InvIdle d)
    (h : BatchInsert orc d q ps = some (d', evs, res)) : InvIdle d' := by
  obtain ⟨bis, ins1, hbis, hcase⟩ := BatchInsert_shape orc d q ps d' evs res h
  have hbisInv : ∀ p ∈ bis, idleEntry p := by
    rcases hbis with rfl | rfl
    · exact hinv
    · intro p hp
      rcases List.mem_append.mp hp with hp' | hp'
      · exact hinv p hp'
      · rw [List.mem_singleton.mp hp']
        exact idleEntry_newInsert q
  rcases hcase with ⟨h1, _⟩ | ⟨p', i3, e1, hf, h1, _⟩
  · intro p hp
    rw [h1] at hp
    rcases mem_setEntry bis q _ p hp with hp' | hp'
    · exact hbisInv p hp'
    · rw [hp']
      exact idleEntry_appendRow q ins1 ps
  · intro p hp
    rw [h1] at hp
    rcases mem_setEntry bis q _ p hp with hp' | hp'
    · exact hbisInv p hp'
    · rcases flushInsert_out orc d.prepstmts p' (appendRow ins1 ps) i3 e1 res hf with
        ⟨_, hins⟩ | ⟨e, _, hins⟩
      · rw [hp', hins]
        exact idleEntry_flushed q (appendRow ins1 ps)
      · rw [hp', hins]
        exact idleEntry_appendRow q ins1 ps

theorem flushStep_invIdle (orc : Oracle) (q : Str) (ins : Insert) (d : DBState)
    (prep' : List Str) (ins' : Insert) (evs : List Event) (res : Except Err Unit)
    (hinv : InvIdle d) (hl : lookupIns d.batchInserts q = some ins)
    (hf : flushInsert orc d.prepstmts ins = some (prep', ins', evs, res)) :
    InvIdle { d with prepstmts := prep', batchInserts := setEntry d.batchInserts q ins' } := by
  intro p hp
  rcases mem_setEntry d.batchInserts q ins' p hp with hp' | hp'
  · exact hinv p hp'
  · rcases flushInsert_out orc d.prepstmts prep' ins ins' evs res hf with
      ⟨_, hins⟩ | ⟨e, _, hins⟩
    · rw [hp', hins]
      exact idleEntry_flushed q ins
    · rw [hp', hins]
      exact hinv (q, ins) (lookupIns_mem d.batchInserts q ins hl)

theorem FlushAll_invIdle (orc : Oracle) (d d' : DBState) (evs : List Event)
    (res : Except Err Unit) (h : FlushAll orc d = some (d', evs, res)) : InvIdle d' := by
  obtain ⟨p', b, haux, hd'⟩ := FlushAll_inv orc d d' evs res h
  intro p hp
  rw [hd'] at hp
  obtain ⟨pp, _, pr, pr', evs', hflush, _⟩ :=
    flushAllAux_out_entries orc d.batchInserts d.prepstmts p' b evs res haux p hp
  have hreset := flushInsert_ok_reset orc pr pr' pp.2 p.2 evs' hflush
  intro _
  rw [hreset]
  exact ⟨rfl, rfl⟩

theorem Step_invIdle (d d' : DBState) (h : Step d d') (hinv : InvIdle d) : InvIdle d' := by
  cases h with
  | batchInsert orc q ps _ _ evs res hb =>
    exact BatchInsert_invIdle orc d q ps d' evs res hinv hb
  | flushOne orc q ins _ prep' ins' evs res hl hf =>
    exact flushStep_invIdle orc q ins d prep' ins' evs res hinv hl hf
  | flushAll orc _ _ evs res hfa =>
    exact FlushAll_invIdle orc d d' evs res hfa

theorem splitEvs_append (a b : List Event) : splitEvs (a ++ b) = splitEvs a ++ splitEvs b :=
  List.filter_append a b

theorem flushAllAux_prep_mono (orc : Oracle) (l : List (Str × Insert)) :
    ∀ (prep p' : List Str) (b : List (Str × Insert)) (evs : List Event)
      (res : Except Err Unit),
      flushAllAux orc prep l = some (p', b, evs, res) →
      ∀ s, hasQuery prep s = true → hasQuery p' s = true := by
  induction l with
  | nil =>
    intro prep p' b evs res h s hs
    simp only [flushAllAux, Option.some.injEq, Prod.mk.injEq] at h
    rw [← h.1]
    exact hs
  | cons p rest ih =>
    intro prep p' b evs res h s hs
    obtain ⟨k, ins⟩ := p
    cases hf : flushInsert orc prep ins with
    | none =>
      unfold flushAllAux at h
      rw [hf] at h
      exact Option.noConfusion h
    | some x =>
      obtain ⟨p1, i1, evs1, res1⟩ := x
      have hs1 := flushInsert_prep_mono orc prep p1 ins i1 evs1 res1 hf s hs
      cases res1 with
      | error e1 =>
        rw [flushAllAux_cons_err orc prep k ins rest p1 i1 evs1 e1 hf] at h
        simp only [Option.some.injEq, Prod.mk.injEq] at h
        rw [← h.1]
        exact hs1
      | ok u =>
        cases u
        rw [flushAllAux_cons_ok orc prep k ins rest p1 i1 evs1 hf] at h
        cases hrec : flushAllAux orc p1 rest with
        | none =>
          rw [hrec] at h
          exact Option.noConfusion h
        | some y =>
          obtain ⟨p2, b2, evs2, res2⟩ := y
          have hs2 := ih p1 p2 b2 evs2 res2 hrec s hs1
          rw [hrec] at h
          cases res2 with
          | error e2 =>
            simp only [Option.some.injEq, Prod.mk.injEq] at h
            rw [← h.1]
            exact hs2
          | ok u2 =>
            cases u2
            simp only [Option.some.injEq, Prod.mk.injEq] at h
            rw [← h.1]
            exact hs2

theorem goIdx_some (i : Nat) : goIdx (some i) = (i : Int) := rfl

theorem goIdx_none : goIdx none = -1 := rfl

theorem goSlice_pos (s : Str) (a b : Int) (h1 : 0 ≤ a) (h2 : a ≤ b)
    (h3 : b ≤ (s.length : Int)) :
    goSlice s a b = some ((s.take b.toNat).drop a.toNat) :=
  if_pos ⟨h1, h2, h3⟩

theorem goSlice_nil (s : Str) (a b : Int)
    (h : ¬(0 ≤ a ∧ a ≤ b ∧ b ≤ (s.length : Int))) : goSlice s a b = none :=
  if_neg h

theorem mem_matchIdxs (pat s : Str) (i : Nat) :
    i ∈ matchIdxs pat s ↔ i ≤ s.length ∧ pat <+: s.drop i := by
  unfold matchIdxs
  rw [List.mem_filter, List.mem_range, Nat.lt_succ_iff, List.isPrefixOf_iff_prefix]

theorem firstMatch_facts (pat s : Str) (i : Nat) (h : firstMatch pat s = some i) :
    i ≤ s.length ∧ pat <+: s.drop i :=
  (mem_matchIdxs pat s i).mp (List.mem_of_mem_head? (Option.mem_def.mpr h))

theorem lastMatch_facts (pat s : Str) (i : Nat) (h : lastMatch pat s = some i) :
    i ≤ s.length ∧ pat <+: s.drop i :=
  (mem_matchIdxs pat s i).mp (List.mem_of_getLast?_eq_some h)

theorem patLen_drop_le (pat s : Str) (i : Nat) (hp : pat <+: s.drop i)
    (hi : i ≤ s.length) : i + pat.length ≤ s.length := by
  have hle := hp.length_le
  rw [List.length_drop] at hle
  omega

theorem lowerStr_length (s : Str) : (lowerStr s).length = s.length :=
  List.length_map s asciiLower

/-- The character at offset 5 of a `values` match is an `s` after case
folding, so it cannot be the `)` found by `strings.LastIndex`: the last
`)` cannot sit at `ndxValues + 5`. -/
theorem values_fifth_not_paren (q : Str) (v p : Nat)
    (hvpref : valuesPat <+: (lowerStr q).drop v) (hppref : [')'] <+: q.drop p)
    (hp5 : p = v + 5) : False := by
  obtain ⟨u, hu⟩ := hvpref
  obtain ⟨t, ht⟩ := hppref
  have e1 : (lowerStr q).drop (v + 5) = 's' :: u := by
    have hdd : (lowerStr q).drop (v + 5) = ((lowerStr q).drop v).drop 5 := by
      rw [List.drop_drop]
    rw [hdd, ← hu]
    rfl
  have e2 : (lowerStr q).drop (v + 5) = ')' :: t.map asciiLower := by
    rw [← hp5]
    unfold lowerStr
    rw [← List.map_drop, ← ht]
    rfl
  rw [e1] at e2
  injection e2 with hch _
  exact absurd hch (by decide)

/-! ## Claim theorems -/

/-- C1: the code violates the idle no-op claim.  After a threshold-1
`BatchInsert` of `tmplAB` every registered batch state has `insertCtr = 0`,
yet `FlushAll` does not no-op: `flushInsert` chops the last character off
the bare `" VALUES"` sentinel and performs a Prepare call and an Exec call
for the malformed statement `INSERT INTO t (a,b) VALUE` with an empty
parameter list, instead of performing zero prepare/exec calls. -/
theorem c1_idle_flushAll_not_noop :
    (∀ p ∈ (stateOf c1run1).batchInserts, p.2.insertCtr = 0) ∧
    evsOf c1flushAll = [Event.prepare sqlABTrunc, Event.exec sqlABTrunc []] ∧
    evsOf c1flushAll ≠ [] :=
  ⟨by decide, rfl, by decide⟩

/-- C2 (amended): with threshold 3 the three `BatchInsert` calls on
`tmplAB` flush exactly once, on the third call, executing the SQL text
`INSERT INTO t (a,b) VALUES (?,?), (?,?), (?,?)` (the template's leading
space before each value tuple is kept, so accumulated tuples are separated
by a comma and a space) bound to `[1, 2, 3, 4, 5, 6]`, and the per-template
counter is 0 immediately afterwards. -/
theorem c2_threshold_roundtrip :
    evsOf c2run1 = [Event.splitCall tmplAB] ∧ resOf c2run1 = Except.ok () ∧
    evsOf c2run2 = [] ∧ resOf c2run2 = Except.ok () ∧
    evsOf c2run3 = [Event.prepare sqlAB3, Event.exec sqlAB3 [1, 2, 3, 4, 5, 6]] ∧
    resOf c2run3 = Except.ok () ∧
    (lookupIns (stateOf c2run3).batchInserts tmplAB).map Insert.insertCtr = some 0 :=
  ⟨rfl, rfl, rfl, rfl, rfl, rfl, rfl⟩

/-- C2 counterexample: the single flush of the three-call scenario prepares
and executes `sqlAB3`, which is not the SQL text the claim states
(`INSERT INTO t (a,b) VALUES (?,?),(?,?),(?,?)`). -/
theorem c2_claimed_sql_wrong :
    evsOf c2run3 = [Event.prepare sqlAB3, Event.exec sqlAB3 [1, 2, 3, 4, 5, 6]] ∧
    sqlAB3 ≠ sqlAB3Claimed :=
  ⟨rfl, by decide⟩

/-- C3 (amended): for the conflict-clause template with threshold 2, the
second call flushes exactly once, executing the SQL text
`INSERT INTO t (a) VALUES (?), (?)ON DUPLICATE KEY UPDATE a=?` — the
tuple separator keeps the template's space and the character immediately
preceding the conflict clause is dropped, so no space remains before `ON`
— which retains exactly one conflict clause, bound to `[x, y, x2, y2]` in
that order. -/
theorem c3_conflict_clause_roundtrip (x y x2 y2 : Param) :
    evsOf (c3run1 x y) = [Event.splitCall tmplDupe] ∧
    resOf (c3run1 x y) = Except.ok () ∧
    evsOf (c3run2 x y x2 y2) =
      [Event.prepare sqlDupe2, Event.exec sqlDupe2 [x, y, x2, y2]] ∧
    resOf (c3run2 x y x2 y2) = Except.ok () ∧
    (matchIdxs dupePat (lowerStr sqlDupe2)).length = 1 :=
  ⟨rfl, rfl, rfl, rfl, rfl⟩

/-- C3 counterexample: at parameters `[1, 2]` then `[3, 4]`, the flush
executes `sqlDupe2`, which is not the SQL text the claim states
(`INSERT INTO t (a) VALUES (?),(?) ON DUPLICATE KEY UPDATE a=?`). -/
theorem c3_claimed_sql_wrong :
    evsOf (c3run2 1 2 3 4) =
      [Event.prepare sqlDupe2, Event.exec sqlDupe2 [1, 2, 3, 4]] ∧
    sqlDupe2 ≠ sqlDupe2Claimed :=
  ⟨rfl, by decide⟩

/-- C4: a single-template flush that fails (during prepare or during
execute) returns that error and leaves the batch state unreset —
`insertCtr` (rowCount), `values` (accumulated text) and `bindParams`
(accumulated parameters) all keep their pre-flush contents, so a retry
resubmits the same accumulated rows. -/
theorem c4_flush_failure_preserves_state (orc : Oracle) (prep prep' : List Str)
    (ins ins' : Insert) (evs : List Event) (e : Err)
    (h : flushInsert orc prep ins = some (prep', ins', evs, Except.error e)) :
    ins'.insertCtr = ins.insertCtr ∧ ins'.values = ins.values ∧
      ins'.bindParams = ins.bindParams := by
  rw [flushInsert_error_frame orc prep prep' ins ins' evs e h]
  exact ⟨rfl, rfl, rfl⟩

/-- C4 witness: with an oracle whose Exec fails, flushing the one-row
state `insAB1` returns an ExecError and the state is preserved. -/
theorem c4_witness :
    flushInsert orcNoExec [] insAB1 =
      some ([sqlAB1], insAB1, [Event.prepare sqlAB1, Event.exec sqlAB1 [1, 2]],
        Except.error (Err.execErr sqlAB1)) ∧
    insAB1.insertCtr = insAB1.insertCtr ∧ insAB1.values = insAB1.values ∧
      insAB1.bindParams = insAB1.bindParams :=
  ⟨rfl,
    c4_flush_failure_preserves_state orcNoExec [] [sqlAB1] insAB1 insAB1
      [Event.prepare sqlAB1, Event.exec sqlAB1 [1, 2]] (Err.execErr sqlAB1) rfl⟩

/-- C5: `FlushAll` semantics.  (1) If it returns an error, the whole batch
registry has been cleared, so every pending batch state — flushed or not —
loses its buffered rows.  (2) If every flush succeeds (an oracle on which
prepare and exec always succeed), it returns success.  (3) Wherever the
first failure occurs — after any prefix of the registry whose per-template
flushes all succeeded — `FlushAll` aborts at that entry: it returns
exactly that flush's error, the registry is cleared, and the events are
exactly the prefix's flush events followed by the failing flush's events,
so entries after the failing one are never attempted. -/
theorem c5_flushAll_abort_semantics (orc : Oracle) (d : DBState) :
    (∀ d' evs e, FlushAll orc d = some (d', evs, Except.error e) →
      d'.batchInserts = []) ∧
    ((∀ q, orc.prepareOk q = true) → (∀ q ps, orc.execOk q ps = true) →
      (∀ p ∈ d.batchInserts, p.2.values ≠ []) →
      ∃ d' evs, FlushAll orc d = some (d', evs, Except.ok ())) ∧
    (∀ pre k ins post prep1 b1 evs1 prep2 ins2 evs2 e,
      d.batchInserts = pre ++ (k, ins) :: post →
      flushAllAux orc d.prepstmts pre = some (prep1, b1, evs1, Except.ok ()) →
      flushInsert orc prep1 ins = some (prep2, ins2, evs2, Except.error e) →
      FlushAll orc d =
        some ({ d with prepstmts := prep2, batchInserts := [] }, evs1 ++ evs2,
          Except.error e)) := by
  refine ⟨?_, ?_, ?_⟩
  · intro d' evs e h
    obtain ⟨p', b, haux, hd'⟩ := FlushAll_inv orc d d' evs (Except.error e) h
    rw [hd']
    exact flushAllAux_error_clears orc d.batchInserts d.prepstmts p' b evs e haux
  · intro hp he hv
    obtain ⟨p', b, evs, haux⟩ := flushAllAux_allOk orc hp he d.batchInserts d.prepstmts hv
    exact ⟨_, evs, FlushAll_of_aux orc d p' b evs (Except.ok ()) haux⟩
  · intro pre k ins post prep1 b1 evs1 prep2 ins2 evs2 e hreg hpre hfail
    have haux : flushAllAux orc d.prepstmts d.batchInserts =
        some (prep2, [], evs1 ++ evs2, Except.error e) := by
      rw [hreg]
      exact flushAllAux_first_err orc pre d.prepstmts prep1 b1 evs1 k ins post prep2
        ins2 evs2 e hpre hfail
    exact FlushAll_of_aux orc d prep2 [] (evs1 ++ evs2) (Except.error e) haux

/-- C5 witness.  Success side: on the all-success oracle, `FlushAll` of the
one-entry pending registry succeeds.  Abort side, at the three-template
registry A, B, C with an oracle failing only on B's SQL: template A
flushes successfully, B's prepare fails, and `FlushAll` returns B's
PrepareError with the registry cleared and no event for C. -/
theorem c5_witness :
    (∃ d' evs, FlushAll orcAll dbPend = some (d', evs, Except.ok ())) ∧
    FlushAll orcBFail dbPend3 =
      some ({ prepstmts := [sqlAB1], flushInterval := 3, batchInserts := [] },
        [Event.prepare sqlAB1, Event.exec sqlAB1 [1, 2], Event.prepare sqlCD1],
        Except.error (Err.prepErr sqlCD1)) :=
  ⟨(c5_flushAll_abort_semantics orcAll dbPend).2.1 (fun _ => rfl) (fun _ _ => rfl)
      (by decide),
    (c5_flushAll_abort_semantics orcBFail dbPend3).2.2 [(tmplAB, insAB1)] tmplCD
      insCD1 [(tmplEF, insEF1)] [sqlAB1] [(tmplAB, flushedIns insAB1)]
      [Event.prepare sqlAB1, Event.exec sqlAB1 [1, 2]] [sqlAB1] insCD1
      [Event.prepare sqlCD1] (Err.prepErr sqlCD1) rfl rfl rfl⟩

/-- C6 counterexample: in a world whose `sql.Open` succeeds but whose
connection is unreachable (pinging it fails), `Open` still returns
success — so `Open` does not verify reachability and does not fail with a
connection error. -/
theorem c6_open_does_not_ping :
    wUnreachable.pingErr = some "connection refused" ∧
    Open wUnreachable "mysql" "dsn" 5 =
      Except.ok
        { preparedStatements := []
          prepstmts := []
          driverName := "mysql"
          flushInterval := 5
          batchInserts := [] } :=
  ⟨rfl, rfl⟩

/-- C6 (amended): `Open` performs no reachability check at all — it fails
exactly when `sql.Open` itself fails, propagating that error, and on
success returns a connection whose batch registry, automatic
prepared-statement cache, and caller-managed prepared-statement map are
all empty, regardless of whether the connection is reachable.  The
Ping-based reachability check exists only in the unexported `setDB`
helper, which `Open` never calls. -/
theorem c6_open_semantics (w : GoWorld) (drv dsn : String) (fi : Nat) :
    (∀ e, w.sqlOpenErr drv dsn = some e → Open w drv dsn fi = Except.error e) ∧
    (w.sqlOpenErr drv dsn = none →
      Open w drv dsn fi =
        Except.ok
          { preparedStatements := []
            prepstmts := []
            driverName := drv
            flushInterval := fi
            batchInserts := [] }) ∧
    (∀ d e, w.pingErr = some e → setDB w d = Except.error e) := by
  refine ⟨?_, ?_, ?_⟩
  · intro e he
    unfold Open
    rw [he]
  · intro hn
    unfold Open
    rw [hn]
  · intro d e he
    unfold setDB
    rw [he]

/-- C6 amended-claim witness at a concrete world. -/
theorem c6_witness :
    Open wUnreachable "pg" "addr" 2 =
      Except.ok
        { preparedStatements := []
          prepstmts := []
          driverName := "pg"
          flushInterval := 2
          batchInserts := [] } :=
  (c6_open_semantics wUnreachable "pg" "addr" 2).2.1 rfl

/-- C7: in every state reachable from a freshly opened connection by any
sequence of `BatchInsert`, single-template flush, and `FlushAll`
operations, a batch state with `insertCtr = 0` has the bare `" VALUES"`
sentinel (empty accumulated value text) and an empty accumulated
parameter list. -/
theorem c7_idle_invariant (fi : Nat) (d : DBState)
    (h : Relation.ReflTransGen Step (openDB fi) d) : InvIdle d := by
  induction h with
  | refl =>
    intro p hp
    exact absurd hp (List.not_mem_nil p)
  | tail _ hstep ih => exact Step_invIdle _ _ hstep ih

/-- C7 witness: the invariant holds at the freshly opened state itself. -/
theorem c7_witness : InvIdle (openDB 3) :=
  c7_idle_invariant 3 (openDB 3) Relation.ReflTransGen.refl

/-- C8: the split-once property.  First call with a template: `splitQuery`
is invoked (exactly one split event) and the registered entry carries the
computed split triple.  Any later call on a template whose stored prefix is
non-empty (every supported INSERT has non-empty text before VALUES)
invokes no split and leaves the prefix/rowFragment/suffix triple
unchanged. -/
theorem c8_split_once (orc : Oracle) (t : Str) :
    (∀ d ps d' evs res ins1,
      lookupIns d.batchInserts t = none →
      splitQuery t newInsert = some ins1 →
      BatchInsert orc d t ps = some (d', evs, res) →
      splitEvs evs = [Event.splitCall t] ∧
      (lookupIns d'.batchInserts t).map splitForm = some (splitForm ins1)) ∧
    (∀ d ps d' evs res ins,
      lookupIns d.batchInserts t = some ins →
      ins.queryPart1 ≠ [] →
      BatchInsert orc d t ps = some (d', evs, res) →
      splitEvs evs = [] ∧
      (lookupIns d'.batchInserts t).map splitForm = some (splitForm ins)) := by
  constructor
  · intro d ps d' evs res ins1 hl hs h
    rw [BatchInsert_new orc d t ps ins1 hl hs] at h
    have hbl : lookupIns (d.batchInserts ++ [(t, newInsert)]) t = some newInsert :=
      lookupIns_append_new d.batchInserts t newInsert hl
    rcases insertCont_shape orc d t ps (d.batchInserts ++ [(t, newInsert)]) ins1 _
        d' evs res h with ⟨h1, _, hevs, _⟩ | ⟨p', i3, e1, hf, h1, _, hevs⟩
    · refine ⟨by rw [hevs]; rfl, ?_⟩
      rw [h1, lookupIns_setEntry_self _ t (appendRow ins1 ps) newInsert hbl]
      rfl
    · refine ⟨?_, ?_⟩
      · rw [hevs, splitEvs_append,
          flushInsert_splitEvs orc d.prepstmts p' (appendRow ins1 ps) i3 e1 res hf]
        rfl
      · rw [h1, lookupIns_setEntry_self _ t i3 newInsert hbl, Option.map_some',
          flushInsert_splitForm orc d.prepstmts p' (appendRow ins1 ps) i3 e1 res hf]
        rfl
  · intro d ps d' evs res ins hl hq1 h
    rw [BatchInsert_found orc d t ps ins hl hq1] at h
    rcases insertCont_shape orc d t ps d.batchInserts ins _ d' evs res h with
      ⟨h1, _, hevs, _⟩ | ⟨p', i3, e1, hf, h1, _, hevs⟩
    · refine ⟨by rw [hevs]; rfl, ?_⟩
      rw [h1, lookupIns_setEntry_self _ t (appendRow ins ps) ins hl]
      rfl
    · refine ⟨?_, ?_⟩
      · rw [hevs, splitEvs_append,
          flushInsert_splitEvs orc d.prepstmts p' (appendRow ins ps) i3 e1 res hf]
        rfl
      · rw [h1, lookupIns_setEntry_self _ t i3 ins hl, Option.map_some',
          flushInsert_splitForm orc d.prepstmts p' (appendRow ins ps) i3 e1 res hf]
        rfl

/-- C8 witness: the first call of the C2 scenario computes the split of
`tmplAB` once, and the second call performs no split and preserves the
triple. -/
theorem c8_witness :
    (splitEvs (evsOf c2run1) = [Event.splitCall tmplAB] ∧
      (lookupIns (stateOf c2run1).batchInserts tmplAB).map splitForm =
        some (splitForm insSplitAB)) ∧
    (splitEvs (evsOf c2run2) = [] ∧
      (lookupIns (stateOf c2run2).batchInserts tmplAB).map splitForm =
        some (splitForm (appendRow insSplitAB [1, 2]))) :=
  ⟨(c8_split_once orcAll tmplAB).1 (openDB 3) [1, 2] (stateOf c2run1) (evsOf c2run1)
      (resOf c2run1) insSplitAB rfl rfl rfl,
    (c8_split_once orcAll tmplAB).2 (stateOf c2run1) [3, 4] (stateOf c2run2)
      (evsOf c2run2) (resOf c2run2) (appendRow insSplitAB [1, 2]) rfl (by decide) rfl⟩

/-- C10: statement-cache frame conditions.  (1) A prepare failure returns
a PrepareError with nothing else changed: the cache gains no entry for the
failed SQL text, no exec call is attempted, and the batch state is
untouched.  (2) After any flush, a text is cached iff it was cached before
or it is the flush's materialized SQL and Prepare succeeded on it — the
cache gains entries only on successful Prepare.  (3)-(4) Neither
`BatchInsert` nor `FlushAll` ever removes a cache entry. -/
theorem c10_prepare_failure_frame (orc : Oracle) (prep : List Str) (ins : Insert) :
    (ins.values ≠ [] → hasQuery prep (builtQuery ins) = false →
      orc.prepareOk (builtQuery ins) = false →
      flushInsert orc prep ins =
        some (prep, ins, [Event.prepare (builtQuery ins)],
          Except.error (Err.prepErr (builtQuery ins)))) ∧
    (∀ prep' ins' evs res, flushInsert orc prep ins = some (prep', ins', evs, res) →
      ∀ s, hasQuery prep' s = true ↔
        (hasQuery prep s = true ∨ (s = builtQuery ins ∧ orc.prepareOk s = true))) ∧
    (∀ d q ps d' evs res, BatchInsert orc d q ps = some (d', evs, res) →
      ∀ s, hasQuery d.prepstmts s = true → hasQuery d'.prepstmts s = true) ∧
    (∀ d d' evs res, FlushAll orc d = some (d', evs, res) →
      ∀ s, hasQuery d.prepstmts s = true → hasQuery d'.prepstmts s = true) := by
  refine ⟨?_, ?_, ?_, ?_⟩
  · intro hv hq hp
    rw [flushInsert_eq orc prep ins hv]
    rw [if_neg (by simp [hq]), if_neg (by simp [hp])]
  · intro prep' ins' evs res h s
    exact flushInsert_prepstmts orc prep prep' ins ins' evs res h s
  · intro d q ps d' evs res h s hs
    obtain ⟨bis, ins1, _, hcase⟩ := BatchInsert_shape orc d q ps d' evs res h
    rcases hcase with ⟨_, h2⟩ | ⟨p', i3, e1, hf, _, h2⟩
    · rw [h2]
      exact hs
    · rw [h2]
      exact flushInsert_prep_mono orc d.prepstmts p' (appendRow ins1 ps) i3 e1 res hf s hs
  · intro d d' evs res h s hs
    obtain ⟨p', b, haux, hd'⟩ := FlushAll_inv orc d d' evs res h
    rw [hd']
    exact flushAllAux_prep_mono orc d.batchInserts d.prepstmts p' b evs res haux s hs

/-- C10 witness: with an oracle whose Prepare fails, flushing `insAB1`
from an empty cache returns a PrepareError, caches nothing, and performs
no exec call. -/
theorem c10_witness :
    flushInsert orcNoPrep [] insAB1 =
      some ([], insAB1, [Event.prepare (builtQuery insAB1)],
        Except.error (Err.prepErr (builtQuery insAB1))) :=
  (c10_prepare_failure_frame orcNoPrep [] insAB1).1 (by decide) rfl rfl

/-- C9: `splitQuery` returns a split form (does not panic on an
out-of-range string slice) exactly under the precondition `splitPre`: the
template contains `values` case-insensitively; if a conflict clause occurs,
the occurrence the code uses (the last) begins strictly after the end of
the first `values` occurrence; and with no conflict clause, the last `)`
sits at or after the end of the `values` keyword.  In particular, on a
template with no VALUES keyword, `ndxValues` stays `-1`, the slice
`query[:ndxValues]` is out of range, and the operation aborts instead of
returning a split form. -/
theorem c9_splitQuery_panic_guard (q : Str) (ins : Insert) :
    (splitQuery q ins).isSome = splitPre q := by
  cases hv : firstMatch valuesPat (lowerStr q) with
  | none =>
    have hnone : goSlice q 0 (goIdx (none : Option Nat)) = none := by
      rw [goIdx_none]
      exact goSlice_nil q 0 (-1) (by omega)
    simp only [splitQuery, splitPre, hv, hnone, Option.isSome_none]
  | some v =>
    obtain ⟨hvle, hvpref⟩ := firstMatch_facts _ _ _ hv
    have hvlen6 : v + valuesPat.length ≤ (lowerStr q).length :=
      patLen_drop_le _ _ _ hvpref hvle
    rw [lowerStr_length] at hvle hvlen6
    have hv6 : v + 6 ≤ q.length := hvlen6
    have hslice0 : goSlice q 0 (goIdx (some v)) =
        some ((q.take ((v : Int)).toNat).drop ((0 : Int)).toNat) := by
      rw [goIdx_some]
      exact goSlice_pos q 0 v (by omega) (by omega) (by omega)
    cases hd : lastMatch dupePat (lowerStr q) with
    | some j =>
      obtain ⟨hjle, hjpref⟩ := lastMatch_facts _ _ _ hd
      rw [lowerStr_length] at hjle
      have hif : (goIdx (some j) : Int) ≠ -1 := by
        rw [goIdx_some]
        omega
      have hsliceJ : goSlice q (goIdx (some j)) ((q.length : Int)) =
          some ((q.take ((q.length : Int)).toNat).drop ((j : Int)).toNat) := by
        rw [goIdx_some]
        exact goSlice_pos q j q.length (by omega) (by omega) (by omega)
      by_cases hlt : v + 6 < j
      · have hsliceA : goSlice q (goIdx (some v) + 6) (goIdx (some j) - 1) =
            some ((q.take (((j : Int) - 1)).toNat).drop (((v : Int) + 6)).toNat) := by
          rw [goIdx_some, goIdx_some]
          exact goSlice_pos q ((v : Int) + 6) ((j : Int) - 1) (by omega) (by omega)
            (by omega)
        simp only [splitQuery, splitPre, hv, hd, hslice0]
        rw [if_pos hif, hsliceA, hsliceJ]
        simp [hlt]
      · have hsliceA : goSlice q (goIdx (some v) + 6) (goIdx (some j) - 1) = none := by
          rw [goIdx_some, goIdx_some]
          exact goSlice_nil q ((v : Int) + 6) ((j : Int) - 1) (by omega)
        simp only [splitQuery, splitPre, hv, hd, hslice0]
        rw [if_pos hif, hsliceA, hsliceJ]
        simp [hlt]
    | none =>
      have hifn : ¬((goIdx (none : Option Nat) : Int) ≠ -1) := fun h => h goIdx_none
      cases hp : lastMatch [')'] q with
      | none =>
        have hsliceA : goSlice q (goIdx (some v) + 6) (goIdx (none : Option Nat) + 1) =
            none := by
          rw [goIdx_some, goIdx_none]
          exact goSlice_nil q ((v : Int) + 6) (-1 + 1) (by omega)
        simp only [splitQuery, splitPre, hv, hd, hp, hslice0]
        rw [if_neg hifn, hsliceA]
        simp
      | some p =>
        obtain ⟨hple, hppref⟩ := lastMatch_facts _ _ _ hp
        have hplt : p < q.length := by
          have hle := hppref.length_le
          rw [List.length_drop] at hle
          simp only [List.length_cons, List.length_nil] at hle
          omega
        by_cases hvp : v + 6 ≤ p
        · have hsliceA : goSlice q (goIdx (some v) + 6) (goIdx (some p) + 1) =
              some ((q.take (((p : Int) + 1)).toNat).drop (((v : Int) + 6)).toNat) := by
            rw [goIdx_some, goIdx_some]
            exact goSlice_pos q ((v : Int) + 6) ((p : Int) + 1) (by omega) (by omega)
              (by omega)
          simp only [splitQuery, splitPre, hv, hd, hp, hslice0]
          rw [if_neg hifn, hsliceA]
          simp [hvp]
        · by_cases hp5 : p = v + 5
          · exact (values_fifth_not_paren q v p hvpref hppref hp5).elim
          · have hsliceA : goSlice q (goIdx (some v) + 6) (goIdx (some p) + 1) =
                none := by
              rw [goIdx_some, goIdx_some]
              exact goSlice_nil q ((v : Int) + 6) ((p : Int) + 1) (by omega)
            simp only [splitQuery, splitPre, hv, hd, hp, hslice0]
            rw [if_neg hifn, hsliceA]
            simp [hvp]

end FastSql
